import Mathlib

/-!
Verification of the Poker_Analysis frontend and of the equity engine it
specifies.  Definitions are shallow embeddings of the JavaScript source
(`App.jsx`, `CardSelectorModal.jsx`, `PokerTable.jsx`); the equity engine,
absent from the source tree, is modelled from the specification.
-/

namespace PokerAnalysis

/-! ## Card component (`Card.jsx` section of `App.jsx`)

`ALL_CARDS` is built by two nested loops, outer over suits, inner over
ranks, pushing the two-character string `rank ++ suit`. -/

def ranks : List Char := ['A', 'K', 'Q', 'J', 'T', '9', '8', '7', '6', '5', '4', '3', '2']

def suits : List Char := ['s', 'h', 'd', 'c']

def ALL_CARDS : List String :=
  suits.flatMap (fun suit => ranks.map (fun rank => String.mk [rank, suit]))

/-- The view produced by the `Card` component for a truthy card token:
the rank is `card[0]`, the suit is `card[1]` (which in JavaScript is
`undefined` when the token has a single character), `T` is displayed as
`10`, and the card is red exactly when the suit is hearts or diamonds. -/
structure CardView where
  displayRank : String
  isRed : Bool
  deriving DecidableEq

/-- Embedding of the `Card` component: an empty token is falsy in
JavaScript and renders the empty placeholder slot (`none` here). -/
def renderCard (card : String) : Option CardView :=
  match card.data with
  | [] => none
  | r :: rest =>
    some { displayRank := if r = 'T' then "10" else String.mk [r]
           isRed := rest.head? = some 'h' || rest.head? = some 'd' }

/-! ## CardSelectorModal (`CardSelectorModal.jsx`)

`handleCardClick` over the temporary selection: a disabled card is
ignored, a selected card is deselected (filter), and an unselected card is
appended only while the selection is below `maxCards`.  The `Clear` button
resets the selection; the `Confirm` button is disabled unless
`tempSelection.length === maxCards`. -/

inductive ModalEvent where
  | click (card : String)
  | clear
  deriving DecidableEq

def handleCardClick (disabledCards : List String) (maxCards : Nat)
    (tempSelection : List String) (card : String) : List String :=
  if card ∈ disabledCards then tempSelection
  else if card ∈ tempSelection then tempSelection.filter (fun c => c ≠ card)
  else if tempSelection.length < maxCards then tempSelection ++ [card]
  else tempSelection

def modalStep (disabledCards : List String) (maxCards : Nat)
    (tempSelection : List String) : ModalEvent → List String
  | .click card => handleCardClick disabledCards maxCards tempSelection card
  | .clear => []

def runModal (disabledCards : List String) (maxCards : Nat)
    (start : List String) (events : List ModalEvent) : List String :=
  events.foldl (modalStep disabledCards maxCards) start

/-- The `Confirm` button is enabled exactly when the selection holds
`maxCards` cards (`disabled={tempSelection.length !== maxCards}`). -/
def confirmEnabled (maxCards : Nat) (tempSelection : List String) : Bool :=
  tempSelection.length = maxCards

/-- Invariant of the modal temporary selection: no duplicates, no
disabled card, and at most `maxCards` cards. -/
def SelInv (disabledCards : List String) (maxCards : Nat)
    (sel : List String) : Prop :=
  sel.Nodup ∧ (∀ c ∈ sel, c ∉ disabledCards) ∧ sel.length ≤ maxCards

instance (disabledCards : List String) (maxCards : Nat) (sel : List String) :
    Decidable (SelInv disabledCards maxCards sel) := by
  unfold SelInv; infer_instance

/-! ## JavaScript value and number semantics

The `PokerTable` state `stackSize` is either a number (preset buttons) or
the string value of the `<input type="number">`.  The guard
`stackSize < 1 || stackSize > 500` coerces the value with JavaScript
`Number` semantics (`NaN` comparisons are false), while the payload field
is `parseInt(stackSize, 10)`. -/

def digitsToNat (ds : List Char) : Nat :=
  ds.foldl (fun n c => 10 * n + (c.toNat - 48)) 0

/-- JavaScript `parseInt(s, 10)`: skip whitespace, optional sign, then the
longest digit prefix; `NaN` (here `none`) when no digit follows. -/
def parseIntJS (s : String) : Option Int :=
  let cs := s.data.dropWhile Char.isWhitespace
  let signed : Bool × List Char :=
    match cs with
    | '-' :: rest => (true, rest)
    | '+' :: rest => (false, rest)
    | _ => (false, cs)
  let ds := signed.2.takeWhile Char.isDigit
  if ds.isEmpty then none
  else some (if signed.1 then -(digitsToNat ds : Int) else (digitsToNat ds : Int))

/-- JavaScript `Number(s)` on the decimal grammar accepted by a
`type="number"` input: trimmed empty string is `0`; otherwise
`sign? (digits (dot digits*)? | dot digits+) ((e|E) sign? digits+)?`;
anything else is `NaN` (`none`). -/
def toNumberJS (s : String) : Option ℚ :=
  let cs := (s.data.dropWhile Char.isWhitespace).reverse.dropWhile Char.isWhitespace |>.reverse
  if cs.isEmpty then some 0
  else
    let signed : Bool × List Char :=
      match cs with
      | '-' :: rest => (true, rest)
      | '+' :: rest => (false, rest)
      | _ => (false, cs)
    let intPart := signed.2.takeWhile Char.isDigit
    let afterInt := signed.2.dropWhile Char.isDigit
    let fracState : List Char × List Char :=
      match afterInt with
      | '.' :: rest => (rest.takeWhile Char.isDigit, rest.dropWhile Char.isDigit)
      | _ => ([], afterInt)
    if intPart.isEmpty && fracState.1.isEmpty then none
    else
      let expVal : Option Int :=
        match fracState.2 with
        | [] => some 0
        | c :: rest =>
          if c = 'e' || c = 'E' then
            let esigned : Bool × List Char :=
              match rest with
              | '-' :: r => (true, r)
              | '+' :: r => (false, r)
              | _ => (false, rest)
            let eds := esigned.2.takeWhile Char.isDigit
            if eds.isEmpty || !(esigned.2.dropWhile Char.isDigit).isEmpty then none
            else some (if esigned.1 then -(digitsToNat eds : Int) else (digitsToNat eds : Int))
          else none
      match expVal with
      | none => none
      | some e =>
        let mantissa : Nat := digitsToNat (intPart ++ fracState.1)
        let pow10 : Int := e - fracState.1.length
        let v : ℚ :=
          if 0 ≤ pow10 then mkRat (mantissa * 10 ^ pow10.toNat) 1
          else mkRat mantissa (10 ^ (-pow10).toNat)
        some (if signed.1 then -v else v)

/-- The `stackSize` React state: a number from the preset buttons or the
string value of the stack input. -/
inductive StackValue where
  | num (n : Int)
  | str (s : String)
  deriving DecidableEq

def stackNumber : StackValue → Option ℚ
  | .num n => some (mkRat n 1)
  | .str s => toNumberJS s

def stackParseInt : StackValue → Option Int
  | .num n => some n
  | .str s => parseIntJS s

/-- JavaScript `<` against a constant: false when the left side is `NaN`. -/
def jsLt (v : Option ℚ) (c : ℚ) : Bool :=
  match v with
  | none => false
  | some q => q < c

/-- JavaScript `>` against a constant: false when the left side is `NaN`. -/
def jsGt (v : Option ℚ) (c : ℚ) : Bool :=
  match v with
  | none => false
  | some q => c < q

/-! ## `handleAnalyze` (`PokerTable.jsx`) -/

/-- The observable outcome of one `handleAnalyze` run: either an error
message is set and the function returns, or `analyzeSpot` is invoked with
the given payload. -/
inductive AnalyzeAction where
  | errMsg (msg : String)
  | apiCall (hero_position villain_position : String) (stack : Option Int)
      (hand : List String)
  deriving DecidableEq

def handleAnalyze (heroCards : List String) (heroPosition villainPosition : String)
    (stackSize : StackValue) (scenarioMode : String) : AnalyzeAction :=
  if heroCards.length ≠ 2 then .errMsg "Please select 2 cards"
  else if jsLt (stackNumber stackSize) 1 || jsGt (stackNumber stackSize) 500 then
    .errMsg "Stack must be between 1 and 500 BB"
  else
    .apiCall heroPosition (if scenarioMode = "rfi" then "BB" else villainPosition)
      (stackParseInt stackSize) heroCards

/-! ## Advisor (`Advisor.jsx` section of `App.jsx`) -/

/-- A JavaScript value as far as the advisor field reads need: the
`found_in_database` response field may be a boolean, a string, a number,
or `undefined` (also the case of an absent field). -/
inductive JSVal where
  | undef
  | boolean (b : Bool)
  | str (s : String)
  | number (q : ℚ)
  deriving DecidableEq

/-- JavaScript strict equality `===` on `JSVal`: values of different
types are never strictly equal. -/
def strictEq : JSVal → JSVal → Bool
  | .undef, .undef => true
  | .boolean a, .boolean b => a = b
  | .str a, .str b => a = b
  | .number a, .number b => a = b
  | _, _ => false

/-- The advisor renders the `Default suggestion (hand not in database)`
indicator exactly when `result.found_in_database === false`. -/
def showsDefaultIndicator (found_in_database : JSVal) : Bool :=
  strictEq found_in_database (.boolean false)

def actionColors : List (String × String) :=
  [("raise", "from-green-600 to-emerald-700 border-green-500"),
   ("all_in", "from-orange-600 to-amber-700 border-orange-500"),
   ("call", "from-blue-600 to-cyan-700 border-blue-500"),
   ("fold", "from-red-900 to-gray-800 border-red-700"),
   ("check", "from-gray-600 to-gray-700 border-gray-500")]

def actionLabels : List (String × String) :=
  [("raise", "RAISE"), ("all_in", "ALL-IN"), ("call", "CALL"),
   ("fold", "FOLD"), ("check", "CHECK")]

def jsToLowerCase (s : String) : String := String.mk (s.data.map Char.toLower)

def jsToUpperCase (s : String) : String := String.mk (s.data.map Char.toUpper)

/-- Embeds the advisor line `const action = result.action?.toLowerCase() || fold`: a missing
action, or one whose lowercasing is the (falsy) empty string, becomes
`fold`. -/
def advisorAction (action : Option String) : String :=
  match action.map jsToLowerCase with
  | none => "fold"
  | some s => if s = "" then "fold" else s

/-- Embeds `const colorClass = actionColors[action] || actionColors.fold`. -/
def advisorColorClass (action : Option String) : String :=
  match List.lookup (advisorAction action) actionColors with
  | some c => c
  | none =>
    match List.lookup "fold" actionColors with
    | some c => c
    | none => ""

/-- Embeds `const label = actionLabels[action] || result.action?.toUpperCase()`. -/
def advisorLabel (action : Option String) : Option String :=
  match List.lookup (advisorAction action) actionLabels with
  | some l => some l
  | none => action.map jsToUpperCase

/-! ## PokerTable configuration (`PokerTable.jsx`) -/

structure PositionInfo where
  id : String
  label : String
  angle : Int
  deriving DecidableEq

inductive TableSize where
  | sixMax
  | nineMax
  | headsUp
  deriving DecidableEq

def TABLE_CONFIGS : TableSize → List PositionInfo
  | .sixMax =>
    [{ id := "BTN", label := "BTN", angle := 270 },
     { id := "SB", label := "SB", angle := 210 },
     { id := "BB", label := "BB", angle := 150 },
     { id := "UTG", label := "UTG", angle := 90 },
     { id := "MP", label := "MP", angle := 30 },
     { id := "CO", label := "CO", angle := 330 }]
  | .nineMax =>
    [{ id := "BTN", label := "BTN", angle := 270 },
     { id := "SB", label := "SB", angle := 230 },
     { id := "BB", label := "BB", angle := 190 },
     { id := "UTG", label := "UTG", angle := 150 },
     { id := "UTG1", label := "UTG+1", angle := 110 },
     { id := "MP", label := "MP", angle := 70 },
     { id := "MP1", label := "MP+1", angle := 30 },
     { id := "CO", label := "CO", angle := 350 },
     { id := "HJ", label := "HJ", angle := 310 }]
  | .headsUp =>
    [{ id := "BTN", label := "BTN/SB", angle := 270 },
     { id := "BB", label := "BB", angle := 90 }]

/-- The villain dropdown renders
`positions.filter(p => p.id !== heroPosition)`. -/
def villainOptions (positions : List PositionInfo) (heroPosition : String) :
    List PositionInfo :=
  positions.filter (fun p => p.id ≠ heroPosition)

def firstPositionId (ps : List PositionInfo) : String :=
  match ps with
  | [] => ""
  | p :: _ => p.id

/-- Embeds `newPositions[1]?.id || newPositions[0].id`. -/
def secondOrFirstId (ps : List PositionInfo) : String :=
  match ps with
  | _ :: q :: _ => q.id
  | [p] => p.id
  | [] => ""

/-- Embedding of `handleTableSizeChange`: keep each seat when its id exists in the new
configuration, otherwise reset the hero to the first entry and the
villain to the second entry (or the first when no second exists). -/
def handleTableSizeChange (newSize : TableSize)
    (heroPosition villainPosition : String) : String × String :=
  let newPositions := TABLE_CONFIGS newSize
  (match newPositions.find? (fun p => p.id = heroPosition) with
   | some _ => heroPosition
   | none => firstPositionId newPositions,
   match newPositions.find? (fun p => p.id = villainPosition) with
   | some _ => villainPosition
   | none => secondOrFirstId newPositions)

/-! ## Equity engine

The repository documents `POST /api/equity` (two hole hands plus an
optional board) but ships no implementation, so the engine below is
modelled from the specification: card/deck model (spec §3, §4.1), naive
5/6/7-card hand evaluator (spec §4.2), and exhaustive board-completion
enumeration with win/tie/loss aggregation (spec §4.3). -/

/-- Modelled from the spec: an immutable card with a rank ordinal
(2..14, Ace = 14 high) and one of four suits. -/
structure Card where
  rank : Nat
  suit : Nat
  deriving DecidableEq

/-- Modelled from the spec: the full 52-card universe. -/
def fullDeck : List Card :=
  (List.range 4).flatMap (fun s => (List.range 13).map (fun r => ⟨r + 2, s⟩))

/-- Modelled from the spec: a hand rank is a category (0 = high-card up
to 8 = straight-flush) together with the ordered tiebreak ranks. -/
abbrev HandRank : Type := Nat × List Nat

def cmpList : List Nat → List Nat → Ordering
  | [], [] => .eq
  | [], _ :: _ => .lt
  | _ :: _, [] => .gt
  | a :: as, b :: bs =>
    match compare a b with
    | .eq => cmpList as bs
    | o => o

/-- Total comparison of hand ranks: category first, then the tiebreak
ranks lexicographically. -/
def cmpHandRank (h1 h2 : HandRank) : Ordering :=
  match compare h1.1 h2.1 with
  | .eq => cmpList h1.2 h2.2
  | o => o

def insertDesc (x : Nat) : List Nat → List Nat
  | [] => [x]
  | y :: ys => if y ≤ x then x :: y :: ys else y :: insertDesc x ys

def sortDesc (l : List Nat) : List Nat := l.foldr insertDesc []

def dedupSorted : List Nat → List Nat
  | [] => []
  | [x] => [x]
  | x :: y :: t => if x = y then dedupSorted (y :: t) else x :: dedupSorted (y :: t)

def insertGroupDesc (g : Nat × Nat) : List (Nat × Nat) → List (Nat × Nat)
  | [] => [g]
  | h :: t =>
    if h.1 < g.1 ∨ (g.1 = h.1 ∧ h.2 ≤ g.2) then g :: h :: t else h :: insertGroupDesc g t

def sortGroupsDesc (l : List (Nat × Nat)) : List (Nat × Nat) := l.foldr insertGroupDesc []

/-- Modelled from the spec: evaluate exactly five cards into the
strongest category they form, with the category-defining ranks followed
by kickers as tiebreaks; the Ace plays low in the `A-2-3-4-5` wheel
straight, which ranks as a 5-high straight. -/
def evaluate5 (cs : List Card) : HandRank :=
  let rs := cs.map Card.rank
  let sortedDesc := sortDesc rs
  let distinct := dedupSorted sortedDesc
  let isFlush : Bool :=
    match cs.map Card.suit with
    | [] => true
    | s :: rest => rest.all (fun x => x = s)
  let straightHigh : Option Nat :=
    match distinct with
    | [a, b, c, d, e] =>
      if a = b + 1 ∧ b = c + 1 ∧ c = d + 1 ∧ d = e + 1 then some a
      else if a = 14 ∧ b = 5 ∧ c = 4 ∧ d = 3 ∧ e = 2 then some 5
      else none
    | _ => none
  let groups := sortGroupsDesc (distinct.map (fun r => (rs.count r, r)))
  let counts := groups.map Prod.fst
  match straightHigh, isFlush with
  | some h, true => (8, [h])
  | _, _ =>
    if counts = [4, 1] then (7, groups.map Prod.snd)
    else if counts = [3, 2] then (6, groups.map Prod.snd)
    else if isFlush then (5, sortedDesc)
    else
      match straightHigh with
      | some h => (4, [h])
      | none =>
        if counts = [3, 1, 1] then (3, groups.map Prod.snd)
        else if counts = [2, 2, 1] then (2, groups.map Prod.snd)
        else if counts = [2, 1, 1, 1] then (1, groups.map Prod.snd)
        else (0, sortedDesc)

/-- Modelled from the spec: the best rank over every 5-card subset of a
5, 6, or 7 card set. -/
def evaluate (cs : List Card) : HandRank :=
  (cs.sublistsLen 5).foldl
    (fun best c5 =>
      let h := evaluate5 c5
      if cmpHandRank h best = .gt then h else best)
    (0, [])

/-- Modelled from the spec: the per-hand output of the equity engine. -/
structure EquityResult where
  win_probability : ℚ
  tie_probability : ℚ
  lose_probability : ℚ
  exact : Bool
  trials : Nat
  deriving DecidableEq

/-- Modelled from the spec: input validation (fail fast, before any
enumeration): each hand has exactly 2 cards, the board has 0, 3, 4, or 5
cards, no card repeats across hands and board, and every card belongs to
the 52-card universe. -/
def validInput (hero villain board : List Card) : Bool :=
  hero.length = 2 && villain.length = 2 &&
    (board.length = 0 || board.length = 3 || board.length = 4 || board.length = 5) &&
    decide (hero ++ villain ++ board).Nodup &&
    (hero ++ villain ++ board).all (fun c => c ∈ fullDeck)

def deadCards (hero villain board : List Card) : List Card :=
  hero ++ villain ++ board

/-- Modelled from the spec: the drawable pool is the 52-card universe
minus every specified card. -/
def remainingDeck (hero villain board : List Card) : List Card :=
  fullDeck.filter (fun c => !((deadCards hero villain board).contains c))

/-- Modelled from the spec: one showdown comparison per exhaustive
completion of the board from the remaining pool. -/
def outcomes (hero villain board : List Card) : List Ordering :=
  ((remainingDeck hero villain board).sublistsLen (5 - board.length)).map
    (fun extra =>
      cmpHandRank (evaluate (hero ++ (board ++ extra)))
        (evaluate (villain ++ (board ++ extra))))

/-- Modelled from the spec: the exhaustive equity engine for two hole
hands and an optional partial board; probabilities are the win/tie/loss
counts over the total number of completions.  Invalid input fails before
any enumeration. -/
def computeEquity (hero villain board : List Card) :
    Option (EquityResult × EquityResult) :=
  if validInput hero villain board then
    some
      ({ win_probability := mkRat ((outcomes hero villain board).count .gt)
           (outcomes hero villain board).length
         tie_probability := mkRat ((outcomes hero villain board).count .eq)
           (outcomes hero villain board).length
         lose_probability := mkRat ((outcomes hero villain board).count .lt)
           (outcomes hero villain board).length
         exact := true, trials := (outcomes hero villain board).length },
       { win_probability := mkRat ((outcomes hero villain board).count .lt)
           (outcomes hero villain board).length
         tie_probability := mkRat ((outcomes hero villain board).count .eq)
           (outcomes hero villain board).length
         lose_probability := mkRat ((outcomes hero villain board).count .gt)
           (outcomes hero villain board).length
         exact := true, trials := (outcomes hero villain board).length })
  else none

end PokerAnalysis

namespace PokerAnalysis

/-! ### Theorems about `ALL_CARDS` and the card selector -/

/-- C2: `ALL_CARDS` holds exactly 52 pairwise-distinct two-character
tokens, one for every rank in `{A,K,Q,J,T,9,8,7,6,5,4,3,2}` paired with
every suit in `{s,h,d,c}`. -/
theorem all_cards_complete :
    ALL_CARDS.length = 52 ∧ ALL_CARDS.Nodup ∧
      (∀ c ∈ ALL_CARDS, c.length = 2) ∧
      (∀ r ∈ ranks, ∀ s ∈ suits, String.mk [r, s] ∈ ALL_CARDS) ∧
      (∀ c ∈ ALL_CARDS, ∃ r ∈ ranks, ∃ s ∈ suits, c = String.mk [r, s]) := by
  refine ⟨by decide, by decide, by decide, by decide, by decide⟩

theorem selInv_handleCardClick (disabledCards : List String) (maxCards : Nat)
    (sel : List String) (card : String)
    (h : SelInv disabledCards maxCards sel) :
    SelInv disabledCards maxCards (handleCardClick disabledCards maxCards sel card) := by
  obtain ⟨hnd, hdis, hlen⟩ := h
  unfold handleCardClick
  split
  · exact ⟨hnd, hdis, hlen⟩
  · split
    · refine ⟨hnd.filter _, fun c hc => hdis c (List.mem_of_mem_filter hc), ?_⟩
      exact le_trans (List.length_filter_le _ _) hlen
    · split
      · next hdisabled hmem hlt =>
        refine ⟨?_, ?_, ?_⟩
        · simpa [List.nodup_append] using ⟨hnd, fun h' => hmem h'⟩
        · intro c hc
          rcases List.mem_append.mp hc with h' | h'
          · exact hdis c h'
          · simp only [List.mem_singleton] at h'
            subst h'; exact hdisabled
        · simpa using hlt
      · exact ⟨hnd, hdis, hlen⟩

theorem selInv_modalStep (disabledCards : List String) (maxCards : Nat)
    (sel : List String) (e : ModalEvent)
    (h : SelInv disabledCards maxCards sel) :
    SelInv disabledCards maxCards (modalStep disabledCards maxCards sel e) := by
  cases e with
  | click card => exact selInv_handleCardClick disabledCards maxCards sel card h
  | clear => exact ⟨List.nodup_nil, fun c hc => absurd hc (List.not_mem_nil c), Nat.zero_le _⟩

/-- C1: from any selection satisfying the invariant (in particular the
initial empty selection), every sequence of clicks and clears keeps the
temporary selection duplicate-free, free of disabled cards, and no larger
than `maxCards`; and the `onSelect` callback can only fire (confirm
enabled) when the selection holds exactly `maxCards` pairwise-distinct
cards. -/
theorem cardSelector_selection_invariant (disabledCards : List String)
    (maxCards : Nat) (start : List String) (events : List ModalEvent)
    (h : SelInv disabledCards maxCards start) :
    SelInv disabledCards maxCards (runModal disabledCards maxCards start events) ∧
      (confirmEnabled maxCards (runModal disabledCards maxCards start events) = true →
        (runModal disabledCards maxCards start events).length = maxCards ∧
          (runModal disabledCards maxCards start events).Nodup) := by
  have hinv : SelInv disabledCards maxCards (runModal disabledCards maxCards start events) := by
    induction events generalizing start with
    | nil => exact h
    | cons e es ih =>
      exact ih (modalStep disabledCards maxCards start e)
        (selInv_modalStep disabledCards maxCards start e h)
  refine ⟨hinv, fun hc => ⟨?_, hinv.1⟩⟩
  simpa [confirmEnabled] using hc

/-- Witness for C1: two clicks from the empty selection with `maxCards = 2`
yield a confirmable two-card selection. -/
theorem cardSelector_selection_invariant_witness :
    SelInv [] 2 (runModal [] 2 [] [.click "As", .click "Kh"]) ∧
      (confirmEnabled 2 (runModal [] 2 [] [.click "As", .click "Kh"]) = true →
        (runModal [] 2 [] [.click "As", .click "Kh"]).length = 2 ∧
          (runModal [] 2 [] [.click "As", .click "Kh"]).Nodup) :=
  cardSelector_selection_invariant [] 2 [] [.click "As", .click "Kh"] (by decide)

/-! ### Theorems about `handleAnalyze` -/

/-- C4: with a hand of any size other than 2, `handleAnalyze` sets the
error `Please select 2 cards` and never reaches the `analyzeSpot` call. -/
theorem handleAnalyze_requires_two_cards (heroCards : List String)
    (heroPosition villainPosition : String) (stackSize : StackValue)
    (scenarioMode : String) (h : heroCards.length ≠ 2) :
    handleAnalyze heroCards heroPosition villainPosition stackSize scenarioMode =
        .errMsg "Please select 2 cards" ∧
      ∀ hp vp stack hand,
        handleAnalyze heroCards heroPosition villainPosition stackSize scenarioMode ≠
          .apiCall hp vp stack hand := by
  have heq : handleAnalyze heroCards heroPosition villainPosition stackSize scenarioMode =
      .errMsg "Please select 2 cards" := by
    unfold handleAnalyze
    exact if_pos h
  exact ⟨heq, fun hp vp stack hand hc => by rw [heq] at hc; exact AnalyzeAction.noConfusion hc⟩

/-- Witness for C4: an empty hand is rejected. -/
theorem handleAnalyze_requires_two_cards_witness :
    handleAnalyze [] "BTN" "BB" (.num 100) "vs" = .errMsg "Please select 2 cards" ∧
      ∀ hp vp stack hand,
        handleAnalyze [] "BTN" "BB" (.num 100) "vs" ≠ .apiCall hp vp stack hand :=
  handleAnalyze_requires_two_cards [] "BTN" "BB" (.num 100) "vs" (by decide)

/-- C10 counterexample: with two cards selected and the sanitized
`type="number"` input value `0.5e1` (JavaScript numeric value 5, inside
the guard range), `handleAnalyze` issues the API call with
`parseInt("0.5e1", 10) = 0`, a stack outside the inclusive range 1..500. -/
theorem handleAnalyze_stack_out_of_range :
    handleAnalyze ["As", "Kh"] "BTN" "BB" (.str "0.5e1") "vs" =
        .apiCall "BTN" "BB" (some 0) ["As", "Kh"] ∧
      ¬(1 ≤ (0 : Int) ∧ (0 : Int) ≤ 500) :=
  ⟨by decide, by decide⟩

/-- C10 (amended): with two cards selected, `handleAnalyze` rejects any
stack input whose JavaScript numeric value is below 1 or above 500 with
the error `Stack must be between 1 and 500 BB` before calling the API;
the stack an API call carries is the base-10 integer parse of the input;
and whenever that integer parse agrees with the numeric value of the input (in
particular for plain integer inputs) the stack sent lies in 1..500. -/
theorem handleAnalyze_stack_guard (heroCards : List String)
    (hp vp mode : String) (st : StackValue) (h2 : heroCards.length = 2) :
    (∀ q : ℚ, stackNumber st = some q → q < 1 ∨ 500 < q →
        handleAnalyze heroCards hp vp st mode =
          .errMsg "Stack must be between 1 and 500 BB") ∧
      ∀ hp' vp' stack hand,
        handleAnalyze heroCards hp vp st mode = .apiCall hp' vp' stack hand →
          stack = stackParseInt st ∧
            ∀ n : Int, ∀ q : ℚ, stack = some n → stackNumber st = some q →
              (n : ℚ) = q → 1 ≤ n ∧ n ≤ 500 := by
  have hcards : ¬ heroCards.length ≠ 2 := fun h => h h2
  constructor
  · intro q hq hrange
    unfold handleAnalyze
    rw [if_neg hcards, if_pos]
    rw [hq]
    rcases hrange with h1 | h1
    · simp [jsLt, h1]
    · simp [jsLt, jsGt, h1]
  · intro hp' vp' stack hand hcall
    unfold handleAnalyze at hcall
    rw [if_neg hcards] at hcall
    by_cases hguard : (jsLt (stackNumber st) 1 || jsGt (stackNumber st) 500) = true
    · rw [if_pos hguard] at hcall
      exact absurd hcall (fun h => AnalyzeAction.noConfusion h)
    · rw [if_neg hguard] at hcall
      obtain ⟨-, -, hstack, -⟩ := AnalyzeAction.apiCall.inj hcall
      refine ⟨hstack.symm, fun n q hn hq hnq => ?_⟩
      rw [hq] at hguard
      simp only [jsLt, jsGt, Bool.or_eq_true, decide_eq_true_eq, not_or] at hguard
      obtain ⟨hg1, hg2⟩ := hguard
      constructor
      · have : (1 : ℚ) ≤ q := not_lt.mp hg1
        rw [← hnq] at this
        exact_mod_cast this
      · have : q ≤ (500 : ℚ) := not_lt.mp hg2
        rw [← hnq] at this
        exact_mod_cast this

/-- Witness for C10 (amended): the preset stack of 100 big blinds passes
the guard and is sent as the in-range integer 100. -/
theorem handleAnalyze_stack_guard_witness :
    some (100 : Int) = stackParseInt (.num 100) ∧
      (1 : Int) ≤ 100 ∧ (100 : Int) ≤ 500 := by
  have h := (handleAnalyze_stack_guard ["As", "Kh"] "BTN" "BB" "vs" (.num 100)
      (by decide)).2 "BTN" "BB" (some 100) ["As", "Kh"] (by decide)
  exact ⟨h.1, h.2 100 (mkRat 100 1) rfl rfl (by norm_num [mkRat, Rat.normalize])⟩

/-! ### Theorems about the Advisor -/

/-- C5: the `Default suggestion (hand not in database)` indicator is
rendered exactly when the response field `found_in_database` is strictly
equal to `false`; for `true`, `undefined`/absent, or any other value the
indicator is not rendered. -/
theorem advisor_default_indicator (v : JSVal) :
    showsDefaultIndicator v = true ↔ v = .boolean false := by
  cases v with
  | undef => simp [showsDefaultIndicator, strictEq]
  | boolean b => cases b <;> simp [showsDefaultIndicator, strictEq]
  | str s => simp [showsDefaultIndicator, strictEq]
  | number q => simp [showsDefaultIndicator, strictEq]

theorem advisorAction_of_lower (s a : String) (ha : a ≠ "")
    (h : jsToLowerCase s = a) : advisorAction (some s) = a := by
  simp [advisorAction, h, ha]

theorem lookup_actionColors_none (a : String)
    (h : a ∉ ["raise", "all_in", "call", "fold", "check"]) :
    List.lookup a actionColors = none := by
  simp only [List.mem_cons, List.not_mem_nil, or_false, not_or] at h
  obtain ⟨h1, h2, h3, h4, h5⟩ := h
  have b1 : (a == "raise") = false := beq_eq_false_iff_ne.mpr h1
  have b2 : (a == "all_in") = false := beq_eq_false_iff_ne.mpr h2
  have b3 : (a == "call") = false := beq_eq_false_iff_ne.mpr h3
  have b4 : (a == "fold") = false := beq_eq_false_iff_ne.mpr h4
  have b5 : (a == "check") = false := beq_eq_false_iff_ne.mpr h5
  simp [actionColors, List.lookup, b1, b2, b3, b4, b5]

/-- C6: the advisor presentation is a pure function of the response field
`action` field: each of the five known actions (after lowercasing) maps
to its fixed gradient class and label; a missing action gets the fold
class and the label `FOLD`; an unrecognized action falls back to the fold
class. -/
theorem advisor_presentation_mapping :
    (∀ s, jsToLowerCase s = "raise" →
        advisorColorClass (some s) = "from-green-600 to-emerald-700 border-green-500" ∧
          advisorLabel (some s) = some "RAISE") ∧
      (∀ s, jsToLowerCase s = "all_in" →
        advisorColorClass (some s) = "from-orange-600 to-amber-700 border-orange-500" ∧
          advisorLabel (some s) = some "ALL-IN") ∧
      (∀ s, jsToLowerCase s = "call" →
        advisorColorClass (some s) = "from-blue-600 to-cyan-700 border-blue-500" ∧
          advisorLabel (some s) = some "CALL") ∧
      (∀ s, jsToLowerCase s = "fold" →
        advisorColorClass (some s) = "from-red-900 to-gray-800 border-red-700" ∧
          advisorLabel (some s) = some "FOLD") ∧
      (∀ s, jsToLowerCase s = "check" →
        advisorColorClass (some s) = "from-gray-600 to-gray-700 border-gray-500" ∧
          advisorLabel (some s) = some "CHECK") ∧
      (advisorColorClass none = "from-red-900 to-gray-800 border-red-700" ∧
        advisorLabel none = some "FOLD") ∧
      ∀ s, jsToLowerCase s ∉ ["raise", "all_in", "call", "fold", "check"] →
        advisorColorClass (some s) = "from-red-900 to-gray-800 border-red-700" := by
  refine ⟨?_, ?_, ?_, ?_, ?_, ⟨by decide, by decide⟩, ?_⟩
  · intro s h
    have hA := advisorAction_of_lower s "raise" (by decide) h
    unfold advisorColorClass advisorLabel
    rw [hA]
    exact ⟨by decide, by simp [actionLabels, List.lookup]⟩
  · intro s h
    have hA := advisorAction_of_lower s "all_in" (by decide) h
    unfold advisorColorClass advisorLabel
    rw [hA]
    exact ⟨by decide, by simp [actionLabels, List.lookup]⟩
  · intro s h
    have hA := advisorAction_of_lower s "call" (by decide) h
    unfold advisorColorClass advisorLabel
    rw [hA]
    exact ⟨by decide, by simp [actionLabels, List.lookup]⟩
  · intro s h
    have hA := advisorAction_of_lower s "fold" (by decide) h
    unfold advisorColorClass advisorLabel
    rw [hA]
    exact ⟨by decide, by simp [actionLabels, List.lookup]⟩
  · intro s h
    have hA := advisorAction_of_lower s "check" (by decide) h
    unfold advisorColorClass advisorLabel
    rw [hA]
    exact ⟨by decide, by simp [actionLabels, List.lookup]⟩
  · intro s h
    by_cases hempty : jsToLowerCase s = ""
    · have hA : advisorAction (some s) = "fold" := by simp [advisorAction, hempty]
      unfold advisorColorClass
      rw [hA]
      decide
    · have hA := advisorAction_of_lower s (jsToLowerCase s) hempty rfl
      unfold advisorColorClass
      rw [hA, lookup_actionColors_none (jsToLowerCase s) h]
      decide

/-- Witness for C6: every hypothesis of the presentation theorem
discharged at a concrete action string. -/
theorem advisor_presentation_mapping_witness :
    (advisorColorClass (some "Raise") = "from-green-600 to-emerald-700 border-green-500" ∧
        advisorLabel (some "Raise") = some "RAISE") ∧
      (advisorColorClass (some "ALL_IN") = "from-orange-600 to-amber-700 border-orange-500" ∧
        advisorLabel (some "ALL_IN") = some "ALL-IN") ∧
      (advisorColorClass (some "Call") = "from-blue-600 to-cyan-700 border-blue-500" ∧
        advisorLabel (some "Call") = some "CALL") ∧
      (advisorColorClass (some "FoLd") = "from-red-900 to-gray-800 border-red-700" ∧
        advisorLabel (some "FoLd") = some "FOLD") ∧
      (advisorColorClass (some "check") = "from-gray-600 to-gray-700 border-gray-500" ∧
        advisorLabel (some "check") = some "CHECK") ∧
      advisorColorClass (some "bet") = "from-red-900 to-gray-800 border-red-700" := by
  obtain ⟨h1, h2, h3, h4, h5, -, h7⟩ := advisor_presentation_mapping
  exact ⟨h1 "Raise" (by decide), h2 "ALL_IN" (by decide), h3 "Call" (by decide),
    h4 "FoLd" (by decide), h5 "check" (by decide), h7 "bet" (by decide)⟩

/-! ### Theorems about the Card component -/

/-- C7: for a non-empty card token the `Card` component renders a view
whose rank is the first character (`T` displayed as `10`, all other ranks
as themselves) and which is red exactly when the second character — the
suit — is `h` or `d`. -/
theorem card_component_view (card : String) (r : Char) (rest : List Char)
    (h : card.data = r :: rest) :
    ∃ v, renderCard card = some v ∧
      (r = 'T' → v.displayRank = "10") ∧
      (r ≠ 'T' → v.displayRank = String.mk [r]) ∧
      (v.isRed = true ↔ rest.head? = some 'h' ∨ rest.head? = some 'd') := by
  have hr : renderCard card =
      some { displayRank := if r = 'T' then "10" else String.mk [r]
             isRed := rest.head? = some 'h' || rest.head? = some 'd' } := by
    unfold renderCard
    rw [h]
  refine ⟨_, hr, ?_, ?_, ?_⟩
  · intro hT
    simp [hT]
  · intro hT
    simp [hT]
  · simp

/-- Witness for C7: the token `Th` renders as a red `10`. -/
theorem card_component_view_witness :
    ∃ v, renderCard "Th" = some v ∧
      ('T' = 'T' → v.displayRank = "10") ∧
      ('T' ≠ 'T' → v.displayRank = String.mk ['T']) ∧
      (v.isRed = true ↔ ['h'].head? = some 'h' ∨ ['h'].head? = some 'd') :=
  card_component_view "Th" 'T' ['h'] (by decide)

/-! ### Theorems about the PokerTable position handling -/

/-- C8: an entry is in the villain dropdown exactly when it is a position
of the current table configuration other than the hero seat, so the
dropdown can never offer the hero position as the villain. -/
theorem villain_options_exclude_hero (ts : TableSize) (hero : String)
    (p : PositionInfo) :
    p ∈ villainOptions (TABLE_CONFIGS ts) hero ↔
      p ∈ TABLE_CONFIGS ts ∧ p.id ≠ hero := by
  simp [villainOptions, List.mem_filter]

theorem firstPositionId_mem (ts : TableSize) :
    firstPositionId (TABLE_CONFIGS ts) ∈ (TABLE_CONFIGS ts).map PositionInfo.id := by
  cases ts <;> decide

theorem secondOrFirstId_mem (ts : TableSize) :
    secondOrFirstId (TABLE_CONFIGS ts) ∈ (TABLE_CONFIGS ts).map PositionInfo.id := by
  cases ts <;> decide

theorem find?_id_some_mem (ps : List PositionInfo) (x : String)
    (p : PositionInfo) (h : ps.find? (fun q => q.id = x) = some p) :
    x ∈ ps.map PositionInfo.id := by
  have hp := List.find?_some h
  have hmem := List.mem_of_find?_eq_some h
  simp only [decide_eq_true_eq] at hp
  exact hp ▸ List.mem_map_of_mem PositionInfo.id hmem

theorem keep_or_reset_mem (ps : List PositionInfo) (x dflt : String)
    (hd : dflt ∈ ps.map PositionInfo.id) :
    (match ps.find? (fun p => p.id = x) with
      | some _ => x
      | none => dflt) ∈ ps.map PositionInfo.id ∧
      (x ∉ ps.map PositionInfo.id →
        (match ps.find? (fun p => p.id = x) with
          | some _ => x
          | none => dflt) = dflt) := by
  cases hf : ps.find? (fun p => p.id = x) with
  | some p =>
    simp only [hf]
    exact ⟨find?_id_some_mem ps x p hf, fun hx => absurd (find?_id_some_mem ps x p hf) hx⟩
  | none =>
    simp only [hf]
    exact ⟨hd, fun _ => trivial⟩

/-- C9: after `handleTableSizeChange`, both seats are ids of the new
table configuration; a hero id absent from the new configuration is
reset to its first entry, and an absent villain id to its second entry
(or the first when no second exists). -/
theorem table_size_change_resets_positions (newSize : TableSize)
    (hero villain : String) :
    (handleTableSizeChange newSize hero villain).1 ∈
        (TABLE_CONFIGS newSize).map PositionInfo.id ∧
      (handleTableSizeChange newSize hero villain).2 ∈
        (TABLE_CONFIGS newSize).map PositionInfo.id ∧
      (hero ∉ (TABLE_CONFIGS newSize).map PositionInfo.id →
        (handleTableSizeChange newSize hero villain).1 =
          firstPositionId (TABLE_CONFIGS newSize)) ∧
      (villain ∉ (TABLE_CONFIGS newSize).map PositionInfo.id →
        (handleTableSizeChange newSize hero villain).2 =
          secondOrFirstId (TABLE_CONFIGS newSize)) := by
  have hh := keep_or_reset_mem (TABLE_CONFIGS newSize) hero
    (firstPositionId (TABLE_CONFIGS newSize)) (firstPositionId_mem newSize)
  have hv := keep_or_reset_mem (TABLE_CONFIGS newSize) villain
    (secondOrFirstId (TABLE_CONFIGS newSize)) (secondOrFirstId_mem newSize)
  have e1 : (handleTableSizeChange newSize hero villain).1 =
      (match (TABLE_CONFIGS newSize).find? (fun p => p.id = hero) with
        | some _ => hero
        | none => firstPositionId (TABLE_CONFIGS newSize)) := rfl
  have e2 : (handleTableSizeChange newSize hero villain).2 =
      (match (TABLE_CONFIGS newSize).find? (fun p => p.id = villain) with
        | some _ => villain
        | none => secondOrFirstId (TABLE_CONFIGS newSize)) := rfl
  rw [e1, e2]
  exact ⟨hh.1, hv.1, hh.2, hv.2⟩

/-! ### Theorems about the equity engine -/

theorem length_filter_add_length_filter_not {α : Type} (p : α → Bool) (l : List α) :
    (l.filter p).length + (l.filter (fun a => !p a)).length = l.length := by
  induction l with
  | nil => rfl
  | cons a t ih =>
    cases h : p a <;> simp [List.filter_cons, h, ← ih] <;> omega

theorem ordering_count_partition (l : List Ordering) :
    l.count .gt + l.count .eq + l.count .lt = l.length := by
  induction l with
  | nil => rfl
  | cons o t ih =>
    simp only [List.count_cons, List.length_cons]
    have e1 : ∀ (a b : Ordering),
        (if (a == b) = true then 1 else 0) = (if a = b then 1 else 0) := by
      intro a b
      cases a <;> cases b <;> decide
    rw [e1, e1, e1]
    cases o <;> simp <;> omega

theorem fullDeck_length : fullDeck.length = 52 := by decide

theorem fullDeck_nodup : fullDeck.Nodup := by decide

theorem validInput_spec (hero villain board : List Card)
    (h : validInput hero villain board = true) :
    hero.length = 2 ∧ villain.length = 2 ∧
      (board.length = 0 ∨ board.length = 3 ∨ board.length = 4 ∨ board.length = 5) ∧
      (deadCards hero villain board).Nodup ∧
      ∀ c ∈ deadCards hero villain board, c ∈ fullDeck := by
  simp only [validInput, Bool.and_eq_true, Bool.or_eq_true, decide_eq_true_eq,
    List.all_eq_true] at h
  obtain ⟨⟨⟨⟨h1, h2⟩, h3⟩, h4⟩, h5⟩ := h
  exact ⟨h1, h2, by tauto, h4, fun c hc => h5 c hc⟩

theorem remainingDeck_length_ge (hero villain board : List Card)
    (h : validInput hero villain board = true) :
    5 - board.length ≤ (remainingDeck hero villain board).length := by
  obtain ⟨h1, h2, h3, h4, h5⟩ := validInput_spec hero villain board h
  have hdlen : (deadCards hero villain board).length = 4 + board.length := by
    simp only [deadCards, List.length_append, h1, h2]
  have hsplit := length_filter_add_length_filter_not
    ((deadCards hero villain board).contains) fullDeck
  rw [fullDeck_length] at hsplit
  have hsub :
      (fullDeck.filter ((deadCards hero villain board).contains)).length ≤
        (deadCards hero villain board).length := by
    have hnd := fullDeck_nodup.filter ((deadCards hero villain board).contains)
    have hss : (fullDeck.filter ((deadCards hero villain board).contains)) ⊆
        deadCards hero villain board := by
      intro x hx
      exact List.elem_iff.mp (List.mem_filter.mp hx).2
    exact (List.subperm_of_subset hnd hss).length_le
  have hrd : (remainingDeck hero villain board).length =
      (fullDeck.filter (fun a => !((deadCards hero villain board).contains a))).length := rfl
  have hb : board.length ≤ 5 := by omega
  omega

theorem outcomes_length (hero villain board : List Card) :
    (outcomes hero villain board).length =
      Nat.choose (remainingDeck hero villain board).length (5 - board.length) := by
  unfold outcomes
  rw [List.length_map, List.length_sublistsLen]

theorem outcomes_length_pos (hero villain board : List Card)
    (h : validInput hero villain board = true) :
    0 < (outcomes hero villain board).length := by
  rw [outcomes_length]
  exact Nat.choose_pos (remainingDeck_length_ge hero villain board h)

theorem count_probs_sum (os : List Ordering) (hpos : 0 < os.length) :
    mkRat (os.count .gt) os.length + mkRat (os.count .eq) os.length +
      mkRat (os.count .lt) os.length = 1 := by
  have hpart := ordering_count_partition os
  have hn : (os.length : ℚ) ≠ 0 := Nat.cast_ne_zero.mpr (Nat.pos_iff_ne_zero.mp hpos)
  rw [Rat.mkRat_eq_div, Rat.mkRat_eq_div, Rat.mkRat_eq_div]
  push_cast
  field_simp
  exact_mod_cast hpart

/-- C3: whenever the equity engine accepts a request (the input is
valid), each reported win, tie, and lose probability triple sums to
exactly 1; the model computes in exact rational arithmetic, so the
floating-point tolerance of the spec is met with equality. -/
theorem equity_probabilities_sum_to_one (hero villain board : List Card)
    (rh rv : EquityResult)
    (h : computeEquity hero villain board = some (rh, rv)) :
    rh.win_probability + rh.tie_probability + rh.lose_probability = 1 ∧
      rv.win_probability + rv.tie_probability + rv.lose_probability = 1 := by
  unfold computeEquity at h
  by_cases hv : validInput hero villain board = true
  · rw [if_pos hv] at h
    have hpos := outcomes_length_pos hero villain board hv
    have hsum := count_probs_sum (outcomes hero villain board) hpos
    have hpair := Option.some.inj h
    rw [Prod.mk.injEq] at hpair
    obtain ⟨e1, e2⟩ := hpair
    subst e1
    subst e2
    refine ⟨hsum, ?_⟩
    have hsum2 :
        mkRat ((outcomes hero villain board).count .lt)
            (outcomes hero villain board).length +
          mkRat ((outcomes hero villain board).count .eq)
            (outcomes hero villain board).length +
          mkRat ((outcomes hero villain board).count .gt)
            (outcomes hero villain board).length = 1 := by
      linarith
    exact hsum2
  · rw [if_neg hv] at h
    exact Option.noConfusion h

def witnessHero : List Card := [⟨14, 0⟩, ⟨13, 0⟩]

def witnessVillain : List Card := [⟨12, 1⟩, ⟨12, 2⟩]

def witnessBoard : List Card := [⟨2, 0⟩, ⟨3, 0⟩, ⟨4, 0⟩, ⟨5, 0⟩, ⟨6, 0⟩]

set_option maxRecDepth 1000000 in
/-- Witness for C3: ace-king of spades versus two queens on the
five-card board `2s 3s 4s 5s 6s` — the straight flush on the board plays for
both hands, the single completion is a tie, and each hand has
probabilities sum to 1. -/
theorem equity_probabilities_sum_to_one_witness :
    (0 : ℚ) + 1 + 0 = 1 ∧ (0 : ℚ) + 1 + 0 = 1 :=
  equity_probabilities_sum_to_one witnessHero witnessVillain witnessBoard
    { win_probability := 0, tie_probability := 1, lose_probability := 0
      exact := true, trials := 1 }
    { win_probability := 0, tie_probability := 1, lose_probability := 0
      exact := true, trials := 1 }
    (by decide)

/-- Witness for C9: switching to the heads-up table with seats `MP` and
`CO`, both absent there, resets the hero to `BTN` and the villain to
`BB`. -/
theorem table_size_change_resets_positions_witness :
    (handleTableSizeChange .headsUp "MP" "CO").1 ∈
        (TABLE_CONFIGS .headsUp).map PositionInfo.id ∧
      (handleTableSizeChange .headsUp "MP" "CO").2 ∈
        (TABLE_CONFIGS .headsUp).map PositionInfo.id ∧
      (handleTableSizeChange .headsUp "MP" "CO").1 =
        firstPositionId (TABLE_CONFIGS .headsUp) ∧
      (handleTableSizeChange .headsUp "MP" "CO").2 =
        secondOrFirstId (TABLE_CONFIGS .headsUp) := by
  have h := table_size_change_resets_positions .headsUp "MP" "CO"
  exact ⟨h.1, h.2.1, h.2.2.1 (by decide), h.2.2.2 (by decide)⟩

end PokerAnalysis
